import Mathlib

/-!
Verification of the vault-protocol SDK against its specification.

The SDK (TypeScript) is a thin client over already-deployed smart contracts.
We shallowly embed the code: every contract interaction goes through a
`World` record that supplies the answer the chain would give to each read,
and records every issued call in a trace, so that statements such as
"no on-chain write call is issued" are provable about the embedding.
Machine integers (JS `number`, `bigint`, Solidity `uint256`) are modelled
as `Nat`/`Int` with the exact arithmetic the source performs.
-/

namespace VaultSDK

/-- On-chain vault tuple as returned by `VaultFactory.vaults`:
`[id, vaultAddress, owner, name, encryptedContentCID, createdAt, isActive]`
(see `VaultManager.ts`, the `OnChainVault` shape and the tuple casts). -/
structure OnChainVault where
  id : Nat
  vaultAddress : String
  owner : String
  name : String
  encryptedContentCID : String
  createdAt : Nat
  isActive : Bool
  deriving Repr, DecidableEq

/-- `TimeManager.vaultConfigs` tuple:
`[releaseType, scheduledTime, deadmanDuration, lastCheckIn, isActive]`
(seconds-valued fields are `uint256` on chain, hence `Nat`). -/
structure TimeConfigTuple where
  releaseType : Nat
  scheduledTime : Nat
  deadmanDuration : Nat
  lastCheckIn : Nat
  isActive : Bool
  deriving Repr, DecidableEq

/-- Contract enum `ReleaseTypeContract` (config/abis/TimeManager.ts):
NONE = 0, SCHEDULED = 1, DEADMAN = 2, HYBRID = 3.  We keep the raw `Nat`. -/
def RTC.NONE : Nat := 0

def RTC.SCHEDULED : Nat := 1

def RTC.DEADMAN : Nat := 2

def RTC.HYBRID : Nat := 3

/-- SDK enum `ReleaseType` (types module). -/
inductive ReleaseType where
  | SCHEDULED
  | DEADMAN
  | HYBRID
  deriving Repr, DecidableEq

/-- A write (transaction) the SDK can issue, with the exact arguments sent. -/
inductive WriteCall where
  | configureTime (vaultAddress : String) (releaseType : Nat)
      (scheduledTime : Int) (deadmanDuration : Int)
  | recordCheckIn (vaultAddress : String)
  | triggerRelease (vaultAddress : String)
  | deactivate (vaultAddress : String)
  | createVault (name : String) (contentCID : String) (value : Nat)
  | updateVaultContent (vaultId : Int) (contentCID : String)
  deriving Repr, DecidableEq

/-- A read the SDK can issue. -/
inductive ReadCall where
  | vaults (vaultId : Int)
  | vaultConfigs (vaultAddress : String)
  | checkReleaseCondition (vaultAddress : String)
  | getTimeUntilScheduledRelease (vaultAddress : String)
  | getTimeUntilDeadmanRelease (vaultAddress : String)
  | creationFee
  | vaultCount
  | getVaultsByOwner (owner : String)
  deriving Repr, DecidableEq

/-- One issued RPC call. -/
inductive Call where
  | read (c : ReadCall)
  | write (c : WriteCall)
  deriving Repr, DecidableEq

/-- Is this call a write (a transaction)? -/
def Call.isWrite : Call → Bool
  | .read _ => false
  | .write _ => true

/-- The external chain: the answer each read would return (`Except.error`
models a rejected/reverted RPC call, which surfaces in JS as a thrown error),
and whether each write transaction succeeds. -/
structure World where
  vaults : Int → Except String OnChainVault
  vaultConfigs : String → Except String TimeConfigTuple
  checkReleaseCondition : String → Except String (Bool × String)
  getTimeUntilScheduledRelease : String → Except String Nat
  getTimeUntilDeadmanRelease : String → Except String Nat
  creationFee : Except String Nat
  vaultCount : Except String Nat
  getVaultsByOwner : String → Except String (List Int)
  writeRes : WriteCall → Except String Unit

/-- SDK computation: threads the trace of issued calls and can fail the way
a JS `async` function throws. -/
def M (α : Type) : Type := List Call → Except String α × List Call

instance : Monad M where
  pure a := fun t => (Except.ok a, t)
  bind x f := fun t =>
    match x t with
    | (Except.ok a, t') => f a t'
    | (Except.error e, t') => (Except.error e, t')

/-- Throw without issuing any call. -/
def M.throw (e : String) : M α := fun t => (Except.error e, t)

/-- Lift a pure fallible computation (no call issued). -/
def M.liftExcept (r : Except String α) : M α := fun t => (r, t)

/-- Issue a call: the call is recorded in the trace even when it fails
(the request was sent, then threw). -/
def M.call (r : Except String α) (c : Call) : M α := fun t => (r, t ++ [c])

/-- JS `try { x } catch (e) { h(e) }`. -/
def M.tryCatch (x : M α) (h : String → M α) : M α := fun t =>
  match x t with
  | (Except.ok a, t') => (Except.ok a, t')
  | (Except.error e, t') => h e t'

/-- Read `VaultFactory.vaults(id)`. -/
def World.readVaults (w : World) (id : Int) : M OnChainVault :=
  M.call (w.vaults id) (.read (.vaults id))

/-- Read `TimeManager.vaultConfigs(addr)`. -/
def World.readVaultConfigs (w : World) (addr : String) : M TimeConfigTuple :=
  M.call (w.vaultConfigs addr) (.read (.vaultConfigs addr))

/-- Read `TimeManager.checkReleaseCondition(addr)`. -/
def World.readCheckRelease (w : World) (addr : String) : M (Bool × String) :=
  M.call (w.checkReleaseCondition addr) (.read (.checkReleaseCondition addr))

/-- Read `TimeManager.getTimeUntilScheduledRelease(addr)`. -/
def World.readTimeUntilScheduled (w : World) (addr : String) : M Nat :=
  M.call (w.getTimeUntilScheduledRelease addr) (.read (.getTimeUntilScheduledRelease addr))

/-- Read `TimeManager.getTimeUntilDeadmanRelease(addr)`. -/
def World.readTimeUntilDeadman (w : World) (addr : String) : M Nat :=
  M.call (w.getTimeUntilDeadmanRelease addr) (.read (.getTimeUntilDeadmanRelease addr))

/-- Read `VaultFactory.creationFee()`. -/
def World.readCreationFee (w : World) : M Nat :=
  M.call w.creationFee (.read .creationFee)

/-- Read `VaultFactory.vaultCount()`. -/
def World.readVaultCount (w : World) : M Nat :=
  M.call w.vaultCount (.read .vaultCount)

/-- Issue a write transaction (`walletClient.writeContract` +
`waitForTransactionReceipt`). -/
def World.writeContract (w : World) (c : WriteCall) : M Unit :=
  M.call (w.writeRes c) (.write c)

/-! ## Chain and contract configuration (config/chains.ts, contracts config) -/

/-- The parts of a viem `Chain` record the factory uses. -/
structure ChainInfo where
  id : Nat
  name : String
  defaultRpcUrl : String
  testnet : Bool
  deriving Repr, DecidableEq

/-- `CHAINS` / `getChain`: chain ID to chain mapping for the seven
configured chains (chains.ts). -/
def getChain (chainId : Nat) : Option ChainInfo :=
  if chainId = 1 then some ⟨1, "Ethereum", "https://eth.llamarpc.com", false⟩
  else if chainId = 56 then some ⟨56, "BSC", "https://bsc-dataseed1.binance.org", false⟩
  else if chainId = 97 then
    some ⟨97, "BSC Testnet", "https://data-seed-prebsc-1-s1.binance.org:8545", true⟩
  else if chainId = 137 then some ⟨137, "Polygon", "https://polygon-rpc.com", false⟩
  else if chainId = 204 then some ⟨204, "opBNB", "https://opbnb-mainnet-rpc.bnbchain.org", false⟩
  else if chainId = 5611 then
    some ⟨5611, "opBNB Testnet", "https://opbnb-testnet-rpc.bnbchain.org", true⟩
  else if chainId = 42161 then some ⟨42161, "Arbitrum One", "https://arb1.arbitrum.io/rpc", false⟩
  else none

/-- Contract address record (contracts config). -/
structure ContractAddresses where
  VaultManager : String
  VaultTimeManager : String
  AccessControl : String
  NotificationOracle : String
  deriving Repr, DecidableEq

/-- The zero address. -/
def ZERO_ADDRESS : String := "0x0000000000000000000000000000000000000000"

/-- `BSC_TESTNET_CONTRACTS` (chain 97). -/
def BSC_TESTNET_CONTRACTS : ContractAddresses :=
  ⟨"0x116865F62E1714D9B512Fd9E4f35e6fDb53D019C",
   "0x68e41639B0c5C56F6E6b0f0Cf9612acac089ff4D",
   ZERO_ADDRESS, ZERO_ADDRESS⟩

/-- `OPBNB_MAINNET_CONTRACTS` (chain 204, all zero: not yet deployed). -/
def OPBNB_MAINNET_CONTRACTS : ContractAddresses :=
  ⟨ZERO_ADDRESS, ZERO_ADDRESS, ZERO_ADDRESS, ZERO_ADDRESS⟩

/-- `OPBNB_TESTNET_CONTRACTS` (chain 5611, all zero: not yet deployed). -/
def OPBNB_TESTNET_CONTRACTS : ContractAddresses :=
  ⟨ZERO_ADDRESS, ZERO_ADDRESS, ZERO_ADDRESS, ZERO_ADDRESS⟩

/-- `CONTRACTS_BY_CHAIN` / `getContractAddresses`: only chains 97, 204 and
5611 have an entry. -/
def getContractAddresses (chainId : Nat) : Option ContractAddresses :=
  if chainId = 97 then some BSC_TESTNET_CONTRACTS
  else if chainId = 204 then some OPBNB_MAINNET_CONTRACTS
  else if chainId = 5611 then some OPBNB_TESTNET_CONTRACTS
  else none

/-- `hasDeployedContracts`: an entry exists and its VaultManager address is
not the zero address. -/
def hasDeployedContracts (chainId : Nat) : Bool :=
  match getContractAddresses chainId with
  | none => false
  | some c => c.VaultManager ≠ ZERO_ADDRESS

/-! ## Client factory (client.ts) -/

/-- `VaultClientConfig`: options passed to `createVaultClient`.  A wallet
client is opaque to the claims, modelled as `Option Unit`. -/
structure VaultClientConfig where
  chainId : Nat
  rpcUrl : Option String
  privateKey : Option String
  walletClient : Option Unit
  account : Option String

/-- Modelled from the spec: viem's `privateKeyToAccount` derives the account
address from the private key inside the external viem library (not part of
this repository).  Only the presence of an account matters to the claims, so
the derivation is modelled as an injective tagging of the key. -/
def privateKeyToAddress (pk : String) : String := "account-of-" ++ pk

/-- The `VaultClient` record the factory returns (fields the claims use). -/
structure Client where
  chainId : Nat
  contracts : ContractAddresses
  rpcUrl : String
  walletClient : Option Unit
  account : Option String
  canWriteFlag : Bool

/-- `canWrite` type guard (client.ts line 186): the `canWrite` field and both
the wallet client and the account are present. -/
def canWriteB (c : Client) : Bool :=
  c.canWriteFlag && c.walletClient.isSome && c.account.isSome

/-- `createVaultClient` (client.ts).  JS `rpcUrl || chain.rpcUrls...`
treats the empty string as falsy, mirrored exactly. -/
def createVaultClient (cfg : VaultClientConfig) : Except String Client :=
  match getChain cfg.chainId with
  | none =>
      Except.error ("Unsupported chain ID: " ++ toString cfg.chainId ++
        ". Supported chains: 1, 56, 97, 137, 204, 5611, 42161")
  | some chain =>
      match getContractAddresses cfg.chainId with
      | none =>
          Except.error ("No contract addresses configured for chain ID: " ++
            toString cfg.chainId)
      | some contracts =>
          -- `hasDeployedContracts` failing only logs a console warning here
          let rpc :=
            match cfg.rpcUrl with
            | some r => if r = "" then chain.defaultRpcUrl else r
            | none => chain.defaultRpcUrl
          if rpc = "" then
            Except.error ("No RPC URL available for chain " ++ toString cfg.chainId)
          else
            let (wallet, account) :=
              match cfg.privateKey with
              | some pk => (some (), some (privateKeyToAddress pk))
              | none =>
                  match cfg.walletClient with
                  | some u => (some u, cfg.account)
                  | none => (none, none)
            Except.ok
              { chainId := cfg.chainId, contracts := contracts, rpcUrl := rpc,
                walletClient := wallet, account := account,
                canWriteFlag := wallet.isSome }

/-! ## Shared SDK data types (types module) -/

/-- `VaultConfig` (types module).  JS `number` timestamps are `Int`;
optional fields are `Option`. -/
structure VaultConfig where
  id : String
  owner : String
  releaseType : ReleaseType
  unlockTime : Option Int
  checkInPeriod : Option Int
  lastCheckIn : Option Int
  recipients : List String
  encrypted : Bool
  crossChain : Bool
  aiMonitored : Bool
  deriving Repr, DecidableEq

/-- `Partial<VaultConfig>`: every field optional (as in the TS `Partial`). -/
structure PartialVaultConfig where
  id : Option String := none
  owner : Option String := none
  releaseType : Option ReleaseType := none
  unlockTime : Option Int := none
  checkInPeriod : Option Int := none
  lastCheckIn : Option Int := none
  recipients : Option (List String) := none
  encrypted : Option Bool := none
  crossChain : Option Bool := none
  aiMonitored : Option Bool := none

/-- JS truthiness of an optional number: `undefined`, `0` (and `NaN`) are
falsy. -/
def truthyNum (o : Option Int) : Bool :=
  match o with
  | some n => n ≠ 0
  | none => false

/-- Decimal digit value of a character, if any. -/
def digitVal (c : Char) : Option Nat :=
  if 48 ≤ c.toNat ∧ c.toNat ≤ 57 then some (c.toNat - 48) else none

/-- Hex digit value of a character, if any. -/
def hexVal (c : Char) : Option Nat :=
  if 48 ≤ c.toNat ∧ c.toNat ≤ 57 then some (c.toNat - 48)
  else if 97 ≤ c.toNat ∧ c.toNat ≤ 102 then some (c.toNat - 87)
  else if 65 ≤ c.toNat ∧ c.toNat ≤ 70 then some (c.toNat - 55)
  else none

/-- Accumulate digits in the given base. -/
def parseDigits (base : Nat) (val : Char → Option Nat) :
    List Char → Nat → Option Nat
  | [], acc => some acc
  | c :: t, acc =>
    match val c with
    | some d => parseDigits base val t (acc * base + d)
    | none => none

/-- JS `BigInt(string)`: parses a decimal integer literal with optional sign,
or a `0x` hex literal; throws otherwise. -/
def parseBigInt (s : String) : Except String Int :=
  let fail : Except String Int :=
    Except.error ("Cannot convert " ++ s ++ " to a BigInt")
  match s.data with
  | [] => Except.ok 0
  | '-' :: rest =>
    match rest with
    | [] => fail
    | _ =>
      match parseDigits 10 digitVal rest 0 with
      | some n => Except.ok (-(n : Int))
      | none => fail
  | '0' :: 'x' :: rest =>
    match rest with
    | [] => fail
    | _ =>
      match parseDigits 16 hexVal rest 0 with
      | some n => Except.ok (n : Int)
      | none => fail
  | cs =>
    match parseDigits 10 digitVal cs 0 with
    | some n => Except.ok (n : Int)
    | none => fail

/-- Does the string look like an address: starts with `0x` and has length
42 (TimeManager.getVaultAddress fast path)?  Written over the character
list so that it evaluates by kernel reduction. -/
def isAddressString (s : String) : Bool :=
  (match s.data with
    | '0' :: 'x' :: _ => true
    | _ => false) &&
  s.data.length = 42

/-! ## TimeManager (core/TimeManager.ts) -/

namespace TimeManager

open VaultSDK

/-- `TimeManager.getVaultAddress`: return the input when it is already an
address, otherwise look the vault up by numeric ID in the factory. -/
def getVaultAddress (w : World) (vaultId : String) : M String :=
  if isAddressString vaultId then pure vaultId
  else do
    let n ← M.liftExcept (parseBigInt vaultId)
    let vd ← w.readVaults n
    pure vd.vaultAddress

/-- `TimeManager.configureScheduledRelease(vaultId, unlockTime)`:
`unlockTime` is in milliseconds; sends
`configureTime(addr, SCHEDULED, BigInt(Math.floor(unlockTime / 1000)), 0n)`. -/
def configureScheduledRelease (w : World) (c : Client) (vaultId : String)
    (unlockTime : Int) : M Unit := do
  if !canWriteB c then M.throw "Write operations require a wallet." else
  let addr ← getVaultAddress w vaultId
  let scheduledTimeSeconds := Int.fdiv unlockTime 1000
  w.writeContract (.configureTime addr RTC.SCHEDULED scheduledTimeSeconds 0)

/-- `TimeManager.configureDeadmanSwitch(vaultId, checkInPeriod, gracePeriod)`:
sends `configureTime(addr, DEADMAN, 0n, BigInt(Math.max(checkInPeriod, 86400)))`;
`gracePeriod` is accepted but never used. -/
def configureDeadmanSwitch (w : World) (c : Client) (vaultId : String)
    (checkInPeriod : Int) (_gracePeriod : Int := 0) : M Unit := do
  if !canWriteB c then M.throw "Write operations require a wallet." else
  let addr ← getVaultAddress w vaultId
  -- Contract requires minimum 24 hours (86400 seconds) for deadman duration
  let duration := max checkInPeriod 86400
  w.writeContract (.configureTime addr RTC.DEADMAN 0 duration)

/-- `TimeManagerConfig` as the hybrid code path reads it at runtime
(`config.scheduledTime`, `config.deadmanDuration`). -/
structure HybridTimeConfig where
  scheduledTime : Option Int := none
  deadmanDuration : Option Int := none

/-- `TimeManager.configureHybridRelease(vaultId, config)`:
`config.scheduledTime ? BigInt(Math.floor(config.scheduledTime / 1000)) : 0n`
(JS truthiness: missing or zero gives `0n`), similarly for
`deadmanDuration`. -/
def configureHybridRelease (w : World) (c : Client) (vaultId : String)
    (config : HybridTimeConfig) : M Unit := do
  if !canWriteB c then M.throw "Write operations require a wallet." else
  let addr ← getVaultAddress w vaultId
  let scheduledTime : Int :=
    if truthyNum config.scheduledTime then
      Int.fdiv (config.scheduledTime.getD 0) 1000
    else 0
  let deadmanDuration : Int :=
    if truthyNum config.deadmanDuration then config.deadmanDuration.getD 0 else 0
  w.writeContract (.configureTime addr RTC.HYBRID scheduledTime deadmanDuration)

/-- `TimeManager.checkIn(vaultId)`: sends `recordCheckIn(addr)`; a failed
transaction is caught and reported as `false`. -/
def checkIn (w : World) (c : Client) (vaultId : String) : M Bool := do
  if !canWriteB c then M.throw "Write operations require a wallet." else
  let addr ← getVaultAddress w vaultId
  M.tryCatch
    (do
      w.writeContract (.recordCheckIn addr)
      pure true)
    (fun _ => pure false)

/-- `TimeManager.getTimeUntilUnlock(vaultId)`: reads `vaultConfigs` and then
dispatches on the release type; the source's two sequential `if` blocks are
flattened into one branch per release type, issuing the same reads in the
same order (for HYBRID, `getTimeUntilScheduledRelease` is read twice, once
in each block, and the minimum uses the second read). -/
def getTimeUntilUnlock (w : World) (_c : Client) (vaultId : String) : M Nat := do
  let addr ← getVaultAddress w vaultId
  let config ← w.readVaultConfigs addr
  let releaseType := config.releaseType
  -- scheduledTime, deadmanDuration and lastCheckIn are destructured in the
  -- source but never used locally
  if releaseType = RTC.SCHEDULED then
    w.readTimeUntilScheduled addr
  else if releaseType = RTC.HYBRID then do
    let _scheduledRemainingFirst ← w.readTimeUntilScheduled addr
    let deadmanRemaining ← w.readTimeUntilDeadman addr
    let scheduledRemaining ← w.readTimeUntilScheduled addr
    pure (min scheduledRemaining deadmanRemaining)
  else if releaseType = RTC.DEADMAN then
    w.readTimeUntilDeadman addr
  else
    pure 0

/-- Lower-case the characters of a string (JS `toLowerCase` on the ASCII
reasons the contract returns). -/
def lowerString (s : String) : String := ⟨s.data.map Char.toLower⟩

/-- Contiguous-subsequence test on character lists (JS `String.includes`). -/
def containsSeq (needle : List Char) : List Char → Bool
  | [] => needle.isEmpty
  | c :: t => needle.isPrefixOf (c :: t) || containsSeq needle t

/-- `reason.toLowerCase().includes('deadman')`. -/
def reasonMentionsDeadman (reason : String) : Bool :=
  containsSeq "deadman".data (lowerString reason).data

/-- `TimeManager.isDeadmanTriggered(vaultId)`: true when the contract says
release is due for a deadman reason, or when the contract's
`getTimeUntilDeadmanRelease` is zero. -/
def isDeadmanTriggered (w : World) (_c : Client) (vaultId : String) : M Bool := do
  let addr ← getVaultAddress w vaultId
  let (shouldRelease, reason) ← w.readCheckRelease addr
  if shouldRelease && reasonMentionsDeadman reason then
    pure true
  else do
    let deadmanRemaining ← w.readTimeUntilDeadman addr
    pure (decide (deadmanRemaining = 0))

/-- Result record of `TimeManager.getTimeConfig`. -/
structure TimeConfigResult where
  releaseType : ReleaseType
  scheduledTime : Nat
  deadmanDuration : Nat
  lastCheckIn : Nat
  isActive : Bool
  deriving Repr, DecidableEq

/-- Contract enum to SDK enum mapping used by `getTimeConfig` (default
SCHEDULED). -/
def mapReleaseType (n : Nat) : ReleaseType :=
  if n = RTC.SCHEDULED then .SCHEDULED
  else if n = RTC.DEADMAN then .DEADMAN
  else if n = RTC.HYBRID then .HYBRID
  else .SCHEDULED

/-- `TimeManager.getTimeConfig(vaultId)`: seconds-valued `scheduledTime` and
`lastCheckIn` are multiplied by 1000 (to milliseconds); `deadmanDuration`
is returned unconverted. -/
def getTimeConfig (w : World) (_c : Client) (vaultId : String) :
    M TimeConfigResult := do
  let addr ← getVaultAddress w vaultId
  let config ← w.readVaultConfigs addr
  pure
    { releaseType := mapReleaseType config.releaseType,
      scheduledTime := config.scheduledTime * 1000,
      deadmanDuration := config.deadmanDuration,
      lastCheckIn := config.lastCheckIn * 1000,
      isActive := config.isActive }

/-- `TimeManager.getLastCheckIn(vaultId)`: `lastCheckIn` seconds times 1000. -/
def getLastCheckIn (w : World) (_c : Client) (vaultId : String) : M Nat := do
  let addr ← getVaultAddress w vaultId
  let config ← w.readVaultConfigs addr
  pure (config.lastCheckIn * 1000)

/-- `TimeManager.checkReleaseCondition(vaultId)`. -/
def checkReleaseCondition (w : World) (_c : Client) (vaultId : String) :
    M (Bool × String) := do
  let addr ← getVaultAddress w vaultId
  w.readCheckRelease addr

/-- `TimeManager.triggerRelease(vaultId)`: re-resolves the address through
`this.checkReleaseCondition(vaultId)`, returns `false` when conditions are
not met or the transaction fails. -/
def triggerRelease (w : World) (c : Client) (vaultId : String) : M Bool := do
  if !canWriteB c then M.throw "Write operations require a wallet." else
  let addr ← getVaultAddress w vaultId
  let (shouldRelease, _reason) ← checkReleaseCondition w c vaultId
  if !shouldRelease then pure false
  else
    M.tryCatch
      (do
        w.writeContract (.triggerRelease addr)
        pure true)
      (fun _ => pure false)

/-- `TimeManager.deactivate(vaultId)`. -/
def deactivate (w : World) (c : Client) (vaultId : String) : M Unit := do
  if !canWriteB c then M.throw "Write operations require a wallet." else
  let addr ← getVaultAddress w vaultId
  w.writeContract (.deactivate addr)

end TimeManager

/-! ## VaultManager (core/VaultManager.ts) -/

namespace VaultManager

open VaultSDK

/-- Guard message thrown by VaultManager write paths. -/
def walletErr : String :=
  "Write operations require a wallet. Initialize client with privateKey or walletClient."

/-- `VaultManager.createVault(config)` (`now` models `Date.now()`):
reads the creation fee, sends `createVault(name, '')` with the fee attached,
reads `vaultCount` and the new vault tuple, optionally configures the
TimeManager, and returns the assembled `VaultConfig`. -/
def createVault (w : World) (c : Client) (config : PartialVaultConfig)
    (now : Int) : M VaultConfig := do
  if !canWriteB c then M.throw walletErr else
  let creationFee ← w.readCreationFee
  let name := config.id.getD ("Vault-" ++ toString now)
  let contentCID := ""
  w.writeContract (.createVault name contentCID creationFee)
  let vaultCount ← w.readVaultCount
  let vaultId : Int := (vaultCount : Int) - 1
  let vaultData ← w.readVaults vaultId
  if config.releaseType.isSome || truthyNum config.unlockTime ||
      truthyNum config.checkInPeriod then do
    let releaseTypeEnum :=
      match config.releaseType with
      | some .SCHEDULED => RTC.SCHEDULED
      | some .DEADMAN => RTC.DEADMAN
      | some .HYBRID => RTC.HYBRID
      | none => RTC.NONE
    let scheduledTime : Int :=
      if truthyNum config.unlockTime then Int.fdiv (config.unlockTime.getD 0) 1000
      else 0
    let deadmanDuration : Int :=
      if truthyNum config.checkInPeriod then config.checkInPeriod.getD 0 else 0
    w.writeContract
      (.configureTime vaultData.vaultAddress releaseTypeEnum scheduledTime
        deadmanDuration)
  pure
    { id := toString vaultId, owner := vaultData.owner,
      releaseType := config.releaseType.getD .SCHEDULED,
      unlockTime := config.unlockTime, checkInPeriod := config.checkInPeriod,
      lastCheckIn := some now, recipients := config.recipients.getD [],
      encrypted := config.encrypted.getD true,
      crossChain := config.crossChain.getD false,
      aiMonitored := config.aiMonitored.getD false }

/-- `VaultManager.getVault(vaultId)`: the whole body is wrapped in
`try/catch` returning `null`; an inactive vault (seventh tuple field false)
also returns `null`; the TimeManager config read has its own `try/catch`
falling back to defaults. -/
def getVault (w : World) (_c : Client) (vaultId : String) :
    M (Option VaultConfig) :=
  M.tryCatch
    (do
      let n ← M.liftExcept (parseBigInt vaultId)
      let vaultData ← w.readVaults n
      if !vaultData.isActive then
        -- Not active
        pure none
      else do
        let timeFields ←
          M.tryCatch
            (do
              let timeConfig ← w.readVaultConfigs vaultData.vaultAddress
              if timeConfig.isActive then
                pure
                  (TimeManager.mapReleaseType timeConfig.releaseType,
                   some ((timeConfig.scheduledTime * 1000 : Nat) : Int),
                   some ((timeConfig.deadmanDuration : Nat) : Int),
                   some ((timeConfig.lastCheckIn * 1000 : Nat) : Int))
              else
                pure (ReleaseType.SCHEDULED, none, none, none))
            (fun _ =>
              -- TimeManager config not set, use defaults
              pure (ReleaseType.SCHEDULED, none, none, none))
        pure
          (some
            { id := vaultId, owner := vaultData.owner,
              releaseType := timeFields.1, unlockTime := timeFields.2.1,
              checkInPeriod := timeFields.2.2.1,
              lastCheckIn := timeFields.2.2.2, recipients := [],
              encrypted := true, crossChain := false, aiMonitored := false }))
    (fun _ => pure none)

/-- The JS object spread `{ ...vault, ...updates }`: fields present in
`updates` override the vault's. -/
def mergeConfig (v : VaultConfig) (u : PartialVaultConfig) : VaultConfig :=
  { id := u.id.getD v.id, owner := u.owner.getD v.owner,
    releaseType := u.releaseType.getD v.releaseType,
    unlockTime := u.unlockTime <|> v.unlockTime,
    checkInPeriod := u.checkInPeriod <|> v.checkInPeriod,
    lastCheckIn := u.lastCheckIn <|> v.lastCheckIn,
    recipients := u.recipients.getD v.recipients,
    encrypted := u.encrypted.getD v.encrypted,
    crossChain := u.crossChain.getD v.crossChain,
    aiMonitored := u.aiMonitored.getD v.aiMonitored }

/-- `VaultManager.updateVault(vaultId, updates)`. -/
def updateVault (w : World) (c : Client) (vaultId : String)
    (updates : PartialVaultConfig) : M VaultConfig := do
  if !canWriteB c then M.throw walletErr else
  let vault ← getVault w c vaultId
  match vault with
  | none => M.throw ("Vault " ++ vaultId ++ " not found")
  | some v => pure (mergeConfig v updates)

/-- `VaultContent` (only the `data` field reaches the chain; the
`Uint8Array` branch is decoded to a string first, so a string suffices). -/
structure VaultContent where
  data : String

/-- `VaultManager.uploadContent(vaultId, content)`: sends
`updateVaultContent(BigInt(vaultId), contentCID)` and returns the CID. -/
def uploadContent (w : World) (c : Client) (vaultId : String)
    (content : VaultContent) : M String := do
  if !canWriteB c then M.throw walletErr else
  let contentCID := content.data
  let n ← M.liftExcept (parseBigInt vaultId)
  w.writeContract (.updateVaultContent n contentCID)
  pure contentCID

/-- `VaultManager.isUnlocked(vaultId)`: reads the vault tuple for the vault
address, then returns the first component of the TimeManager's
`checkReleaseCondition` verdict unchanged. -/
def isUnlocked (w : World) (_c : Client) (vaultId : String) : M Bool := do
  let n ← M.liftExcept (parseBigInt vaultId)
  let vaultData ← w.readVaults n
  let (shouldRelease, _reason) ← w.readCheckRelease vaultData.vaultAddress
  pure shouldRelease

/-- `VaultManager.unlockVault(vaultId)`: checks the release condition and
sends `triggerRelease` only when the contract says release is due. -/
def unlockVault (w : World) (c : Client) (vaultId : String) : M Bool := do
  if !canWriteB c then M.throw walletErr else
  let n ← M.liftExcept (parseBigInt vaultId)
  let vaultData ← w.readVaults n
  let (shouldRelease, _reason) ← w.readCheckRelease vaultData.vaultAddress
  if !shouldRelease then pure false
  else do
    w.writeContract (.triggerRelease vaultData.vaultAddress)
    pure true

end VaultManager

/-! ## CrossChainClient (an in-memory stub, see its source comments) -/

namespace CrossChain

open VaultSDK

/-- `CrossChainMessage` (types module); `data` is opaque to the stub. -/
structure CrossChainMessage where
  sourceChain : Nat
  destChain : Nat
  vaultId : String
  operation : String
  deriving Repr, DecidableEq

/-- `MessageStatus`. -/
structure MessageStatus where
  sent : Bool
  received : Bool
  processed : Bool
  timestamp : Option Int
  error : Option String
  deriving Repr, DecidableEq

/-- The client's `supportedChains` list, in source order. -/
def supportedChains : List Nat := [1, 56, 97, 137, 204, 5611, 42161, 10, 8453, 43114]

/-- `CrossChainClient.isSupportedChain`. -/
def isSupportedChain (chainId : Nat) : Bool := supportedChains.contains chainId

/-- The in-memory `pendingMessages` map. -/
def PendingMap : Type := String → Option (CrossChainMessage × MessageStatus)

/-- The generated message ID
`lz-${sourceChain}-${destChain}-${Date.now()}-${random}`. -/
def mkMessageId (msg : CrossChainMessage) (now : Int) (rand : String) : String :=
  "lz-" ++ toString msg.sourceChain ++ "-" ++ toString msg.destChain ++ "-" ++
    toString now ++ "-" ++ rand

/-- `CrossChainClient.sendMessage`: validates both chains, stores the message
locally under the generated ID and returns the ID; no contract call is made
(the call trace passes through unchanged). -/
def sendMessage (st : PendingMap) (msg : CrossChainMessage) (now : Int)
    (rand : String) (trace : List Call) :
    Except String (String × PendingMap) × List Call :=
  (if !isSupportedChain msg.sourceChain then
    Except.error ("Source chain " ++ toString msg.sourceChain ++ " is not supported")
  else if !isSupportedChain msg.destChain then
    Except.error ("Destination chain " ++ toString msg.destChain ++ " is not supported")
  else
    let messageId := mkMessageId msg now rand
    let status : MessageStatus :=
      { sent := true, received := false, processed := false,
        timestamp := some now, error := none }
    Except.ok
      (messageId,
       fun id => if id = messageId then some (msg, status) else st id),
   trace)

/-- `CrossChainClient.getMessageStatus`: the stored status when the ID is in
the pending map, otherwise a not-found status. -/
def getMessageStatus (st : PendingMap) (messageId : String) : MessageStatus :=
  match st messageId with
  | some pending => pending.2
  | none =>
      { sent := false, received := false, processed := false,
        timestamp := none, error := some "Message not found" }

end CrossChain

/-! ## AttestationClient (client.ts, second half) -/

namespace Attestation

open VaultSDK

/-- `getAttestationRequest` return struct. -/
structure AttestationRequest where
  requestId : Nat
  requestType : String
  data : String
  requester : String
  requiredConsensus : Nat
  createdAt : Nat
  expiresAt : Nat
  fulfilled : Bool
  deriving Repr, DecidableEq

/-- The external AttestationHub contract, as the SDK observes it:
`assignedRequestId` is the ID the hub gives the request created by a
successful `requestAttestation` transaction (recoverable from its event
logs); `requests` answers `getAttestationRequest`; `consensus` answers
`checkConsensus`; `txSuccess` is the receipt status of the submitted
transaction. -/
structure Hub where
  assignedRequestId : Nat
  txSuccess : Bool
  requests : Int → Except String AttestationRequest
  consensus : Int → Except String (Bool × Bool)

/-- `ensureContractAvailable` guard: the hub address is present and not the
zero address. -/
def contractAvailable (contractAddress : String) : Bool :=
  contractAddress ≠ "" && contractAddress ≠ ZERO_ADDRESS

/-- `AttestationClient.submitAttestation(params)` (`now` models
`Date.now()`): after the guards it sends `requestAttestation`, waits for the
receipt, and — as the source comments say — returns `BigInt(Date.now())` as
a placeholder instead of parsing the created request's ID from the event
logs. -/
def submitAttestation (hub : Hub) (c : Client) (contractAddress : String)
    (now : Int) : Except String Int :=
  if !contractAvailable contractAddress then
    Except.error
      "AttestationHub contract not deployed on this network. Attestation features are not yet available."
  else if !canWriteB c then
    Except.error
      "Write operations require a wallet. Provide privateKey or walletClient when creating the client."
  else if !hub.txSuccess then
    Except.error "Attestation request transaction failed"
  else
    -- Return a placeholder: the source returns BigInt(Date.now())
    Except.ok now

/-- `AttestationClient.getAttestationStatus(requestId)`: polls
`getAttestationRequest` for exactly the ID it is given. -/
def getAttestationStatus (hub : Hub) (_c : Client) (contractAddress : String)
    (requestId : Int) : Except String AttestationRequest :=
  if !contractAvailable contractAddress then
    Except.error
      "AttestationHub contract not deployed on this network. Attestation features are not yet available."
  else hub.requests requestId

/-- `AttestationClient.verifyAttestation(requestId)`: polls `checkConsensus`
for exactly the ID it is given. -/
def verifyAttestation (hub : Hub) (_c : Client) (contractAddress : String)
    (requestId : Int) : Except String (Bool × Bool) :=
  if !contractAvailable contractAddress then
    Except.error
      "AttestationHub contract not deployed on this network. Attestation features are not yet available."
  else hub.consensus requestId

end Attestation

/-! ## Text encoding utilities

`TextEncoder`/`TextDecoder` (UTF-8), `btoa`/`atob` (base64) and viem's
`toHex` are platform/library primitives the SDK composes; they have fixed
standard semantics, embedded here concretely.  A JS string is modelled as
its list of Unicode scalar values. -/

namespace Encoding

/-- A Unicode scalar value (what a well-formed JS string is a sequence of). -/
def ValidScalar (n : Nat) : Prop := n < 0xD800 ∨ (0xE000 ≤ n ∧ n < 0x110000)

instance (n : Nat) : Decidable (ValidScalar n) := by
  unfold ValidScalar
  infer_instance

/-- UTF-8 encoding of one scalar value (`TextEncoder`). -/
def utf8EncodeChar (n : Nat) : List Nat :=
  if n < 0x80 then [n]
  else if n < 0x800 then [0xC0 + n / 64, 0x80 + n % 64]
  else if n < 0x10000 then
    [0xE0 + n / 4096, 0x80 + n / 64 % 64, 0x80 + n % 64]
  else
    [0xF0 + n / 262144, 0x80 + n / 4096 % 64, 0x80 + n / 64 % 64, 0x80 + n % 64]

/-- UTF-8 encoding of a string (`TextEncoder.encode`). -/
def utf8Encode (s : List Nat) : List Nat := (s.map utf8EncodeChar).flatten

/-- UTF-8 decoding (`TextDecoder.decode`) on well-formed input: lead byte
classification plus continuation-byte checks; `none` on input no encoder
produces. -/
def utf8Decode : List Nat → Option (List Nat)
  | [] => some []
  | b :: l =>
    if b < 0x80 then (utf8Decode l).map (b :: ·)
    else
      match l with
      | [] => none
      | b2 :: l2 =>
        if b < 0xE0 then
          if 0xC2 ≤ b ∧ b2 / 64 = 2 then
            (utf8Decode l2).map (((b - 0xC0) * 64 + (b2 - 0x80)) :: ·)
          else none
        else
          match l2 with
          | [] => none
          | b3 :: l3 =>
            if b < 0xF0 then
              if b2 / 64 = 2 ∧ b3 / 64 = 2 then
                (utf8Decode l3).map
                  (((b - 0xE0) * 4096 + (b2 - 0x80) * 64 + (b3 - 0x80)) :: ·)
              else none
            else
              match l3 with
              | [] => none
              | b4 :: l4 =>
                if b < 0xF8 then
                  if b2 / 64 = 2 ∧ b3 / 64 = 2 ∧ b4 / 64 = 2 then
                    (utf8Decode l4).map
                      (((b - 0xF0) * 262144 + (b2 - 0x80) * 4096 +
                        (b3 - 0x80) * 64 + (b4 - 0x80)) :: ·)
                  else none
                else none

/-- The base64 alphabet, in index order. -/
def b64Alphabet : List Char :=
  "ABCDEFGHIJKLMNOPQRSTUVWXYZabcdefghijklmnopqrstuvwxyz0123456789+/".data

/-- Sextet to base64 character. -/
def b64Char (n : Nat) : Char := b64Alphabet.getD n 'A'

/-- Base64 character back to its sextet. -/
def b64Index (c : Char) : Option Nat := b64Alphabet.findIdx? (· = c)

/-- `btoa`: standard base64 with `=` padding, three input bytes at a time. -/
def b64Encode : List Nat → List Char
  | a :: b :: c :: rest =>
      b64Char (a / 4) :: b64Char (a % 4 * 16 + b / 16) ::
        b64Char (b % 16 * 4 + c / 64) :: b64Char (c % 64) :: b64Encode rest
  | [a, b] => [b64Char (a / 4), b64Char (a % 4 * 16 + b / 16), b64Char (b % 16 * 4), '=']
  | [a] => [b64Char (a / 4), b64Char (a % 4 * 16), '=', '=']
  | [] => []

/-- `atob`: inverse of `b64Encode`; `none` on malformed input. -/
def b64Decode : List Char → Option (List Nat)
  | c1 :: c2 :: c3 :: c4 :: rest =>
    if c3 = '=' then
      if c4 = '=' ∧ rest = [] then
        match b64Index c1, b64Index c2 with
        | some s1, some s2 => some [s1 * 4 + s2 / 16]
        | _, _ => none
      else none
    else if c4 = '=' then
      if rest = [] then
        match b64Index c1, b64Index c2, b64Index c3 with
        | some s1, some s2, some s3 =>
            some [s1 * 4 + s2 / 16, s2 % 16 * 16 + s3 / 4]
        | _, _, _ => none
      else none
    else
      match b64Index c1, b64Index c2, b64Index c3, b64Index c4 with
      | some s1, some s2, some s3, some s4 =>
          (b64Decode rest).map
            (fun tl => (s1 * 4 + s2 / 16) :: (s2 % 16 * 16 + s3 / 4) ::
              (s3 % 4 * 64 + s4) :: tl)
      | _, _, _, _ => none
  | [] => some []
  | _ => none

/-- Lower-case hex digit of a value below 16 (viem's `toHex`). -/
def hexDigit (n : Nat) : Char := "0123456789abcdef".data.getD n '0'

/-- viem `toHex` on a byte array: `0x` followed by two hex digits per byte. -/
def toHexBytes (bytes : List Nat) : String :=
  ⟨'0' :: 'x' :: (bytes.map (fun b => [hexDigit (b / 16), hexDigit (b % 16)])).flatten⟩

end Encoding

/-! ## attestationTypeToBytes32 (client.ts) -/

/-- `attestationTypeToBytes32(type)`: UTF-8 encode the type string, write its
first 32 bytes into a zero-filled 32-byte array, and hex-encode it
(`new Uint8Array(32)` + `result.set(bytes.slice(0, 32))` + `toHex`). -/
def attestationTypeToBytes32 (typeString : List Nat) : String :=
  let bytes := Encoding.utf8Encode typeString
  let sliced := bytes.take 32
  let result := sliced ++ List.replicate (32 - sliced.length) 0
  Encoding.toHexBytes result

/-! ## Encryption wrappers (utils/encryption.ts) -/

namespace Encryption

open Encoding

/-- Modelled from the spec: the AES-256-GCM primitive lives in the platform's
WebCrypto (`crypto.subtle`), outside this repository.  It is modelled as an
abstract cipher pair (key, IV, plaintext bytes to ciphertext bytes and
back); the round-trip claim takes the standard AES-GCM correctness property
`dec k iv (enc k iv p) = some p` as a hypothesis about this external
primitive. -/
structure AesGcm where
  enc : List Nat → List Nat → List Nat → List Nat
  dec : List Nat → List Nat → List Nat → Option (List Nat)

/-- A `CryptoKey` is determined by its raw key material (32 bytes for
AES-256). -/
abbrev CryptoKey : Type := List Nat

/-- `encryptData(data, key)` with the random 12-byte IV made explicit:
UTF-8 encode, encrypt, return ciphertext and IV. -/
def encryptData (prim : AesGcm) (data : List Nat) (key : CryptoKey)
    (iv : List Nat) : List Nat × List Nat :=
  (prim.enc key iv (utf8Encode data), iv)

/-- `decryptData(encrypted, key, iv)`: decrypt, then UTF-8 decode. -/
def decryptData (prim : AesGcm) (encrypted : List Nat) (key : CryptoKey)
    (iv : List Nat) : Option (List Nat) :=
  (prim.dec key iv encrypted).bind utf8Decode

/-- `exportKey(key)`: `btoa(String.fromCharCode(...rawBytes))`, i.e. base64
of the raw key bytes. -/
def exportKey (key : CryptoKey) : List Char := b64Encode key

/-- `importKey(keyData)`: `Uint8Array.from(atob(keyData), c => c.charCodeAt(0))`
re-imported as raw key material. -/
def importKey (keyData : List Char) : Option CryptoKey := b64Decode keyData

end Encryption

/-! ## Concrete fixtures for witnesses -/

/-- A syntactically valid vault address (42 characters, `0x`-prefixed). -/
def exAddr : String := "0x68e41639B0c5C56F6E6b0f0Cf9612acac089ff4D"

/-- A concrete active on-chain vault. -/
def exVault : OnChainVault :=
  { id := 0, vaultAddress := exAddr, owner := "0xowner", name := "Vault-1",
    encryptedContentCID := "", createdAt := 1700000000, isActive := true }

/-- A concrete inactive on-chain vault. -/
def exVaultInactive : OnChainVault := { exVault with isActive := false }

/-- A concrete active time configuration (HYBRID). -/
def exTimeConfig : TimeConfigTuple :=
  { releaseType := 3, scheduledTime := 1700001000, deadmanDuration := 86400,
    lastCheckIn := 1699990000, isActive := true }

/-- A concrete world giving successful answers to every call. -/
def exWorld : World :=
  { vaults := fun i => if i = 0 then Except.ok exVault else Except.error "revert",
    vaultConfigs := fun _ => Except.ok exTimeConfig,
    checkReleaseCondition := fun _ => Except.ok (true, "Deadman switch expired"),
    getTimeUntilScheduledRelease := fun _ => Except.ok 500,
    getTimeUntilDeadmanRelease := fun _ => Except.ok 0,
    creationFee := Except.ok 100,
    vaultCount := Except.ok 1,
    getVaultsByOwner := fun _ => Except.ok [0],
    writeRes := fun _ => Except.ok () }

/-- `exWorld` but vault 0 is inactive. -/
def exWorldInactive : World :=
  { exWorld with
    vaults := fun i => if i = 0 then Except.ok exVaultInactive else Except.error "revert" }

/-- `exWorld` but every `vaultConfigs` read reverts. -/
def exWorldTCFail : World :=
  { exWorld with vaultConfigs := fun _ => Except.error "revert" }

/-- A concrete client with write capability. -/
def exClientRW : Client :=
  { chainId := 97, contracts := BSC_TESTNET_CONTRACTS, rpcUrl := "http://rpc",
    walletClient := some (), account := some "0xacc", canWriteFlag := true }

/-- A concrete AttestationHub contract address. -/
def exHubAddr : String := "0x1111111111111111111111111111111111111111"

/-- A concrete attestation request stored on the hub under ID 1. -/
def exAttRequest : Attestation.AttestationRequest :=
  { requestId := 1, requestType := "0x444541", data := "0xdata",
    requester := "0xreq", requiredConsensus := 5, createdAt := 1700000000,
    expiresAt := 1700086400, fulfilled := false }

/-- A concrete hub: the submitted request is created under ID 1 and the
transaction succeeds; only ID 1 exists. -/
def exHub : Attestation.Hub :=
  { assignedRequestId := 1, txSuccess := true,
    requests := fun i =>
      if i = 1 then Except.ok exAttRequest else Except.error "request not found",
    consensus := fun i =>
      if i = 1 then Except.ok (true, true) else Except.error "request not found" }

/-- A concrete cipher satisfying the AES-GCM correctness property (the
identity cipher), used only to witness the round-trip theorem. -/
def exPrim : Encryption.AesGcm :=
  { enc := fun _ _ p => p, dec := fun _ _ c => some c }

/-- A concrete 32-byte raw key. -/
def exKey : Encryption.CryptoKey := List.replicate 32 7

/-- A concrete 12-byte IV. -/
def exIV : List Nat := List.replicate 12 0

/-- The code points of the string "hi". -/
def exMsg : List Nat := [104, 105]

/-- The code points of the attestation type string "DEATH_VERIFICATION". -/
def exTypeStr : List Nat :=
  [68, 69, 65, 84, 72, 95, 86, 69, 82, 73, 70, 73, 67, 65, 84, 73, 79, 78]

/-- The read-only client the factory produces for chain 97 with neither
private key nor wallet client. -/
def exClientRO : Client :=
  { chainId := 97, contracts := BSC_TESTNET_CONTRACTS,
    rpcUrl := "https://data-seed-prebsc-1-s1.binance.org:8545",
    walletClient := none, account := none, canWriteFlag := false }

/-! ## Theorems -/

section Claims

theorem M.bind_apply (x : M α) (f : α → M β) (t : List Call) :
    (x >>= f) t =
      match x t with
      | (Except.ok a, t') => f a t'
      | (Except.error e, t') => (Except.error e, t') := rfl

theorem M.pure_apply (a : α) (t : List Call) :
    (pure a : M α) t = (Except.ok a, t) := rfl

/-- C8: for every `checkInPeriod`, `configureDeadmanSwitch` sends a deadman
duration of `max(checkInPeriod, 86400)` seconds on-chain (so at least 86400
seconds), and the `gracePeriod` parameter has no effect on the arguments
sent. -/
theorem configureDeadmanSwitch_sends_max_86400
    (w : World) (c : Client) (addr : String) (p g : Int)
    (hcw : canWriteB c = true) (ha : isAddressString addr = true) :
    (TimeManager.configureDeadmanSwitch w c addr p g []).2 =
        [Call.write (.configureTime addr RTC.DEADMAN 0 (max p 86400))] ∧
      (86400 : Int) ≤ max p 86400 ∧
      ∀ g', TimeManager.configureDeadmanSwitch w c addr p g =
        TimeManager.configureDeadmanSwitch w c addr p g' := by
  refine ⟨?_, le_max_right _ _, fun g' => rfl⟩
  simp [TimeManager.configureDeadmanSwitch, TimeManager.getVaultAddress, hcw, ha,
    M.bind_apply, M.pure_apply, World.writeContract, M.call]

/-- Witness for C8 at a concrete world, client and period. -/
theorem configureDeadmanSwitch_sends_max_86400_witness :
    canWriteB exClientRW = true ∧ isAddressString exAddr = true ∧
      ((TimeManager.configureDeadmanSwitch exWorld exClientRW exAddr 100 7 []).2 =
          [Call.write (.configureTime exAddr RTC.DEADMAN 0 (max 100 86400))] ∧
        (86400 : Int) ≤ max 100 86400 ∧
        ∀ g', TimeManager.configureDeadmanSwitch exWorld exClientRW exAddr 100 7 =
          TimeManager.configureDeadmanSwitch exWorld exClientRW exAddr 100 g') :=
  ⟨rfl, by decide,
    configureDeadmanSwitch_sends_max_86400 exWorld exClientRW exAddr 100 7
      rfl (by decide)⟩

/-- C9: `createVaultClient` returns a client only for chain IDs 97, 204 and
5611 (the chains present in `CONTRACTS_BY_CHAIN`): every chain ID outside
the seven configured chains gets the 'Unsupported chain ID' error, and the
other four advertised chains (1, 56, 137, 42161) get the 'No contract
addresses configured' error. -/
theorem createVaultClient_chain_gating (cfg : VaultClientConfig) :
    (cfg.chainId ∉ ([1, 56, 97, 137, 204, 5611, 42161] : List Nat) →
      createVaultClient cfg =
        Except.error ("Unsupported chain ID: " ++ toString cfg.chainId ++
          ". Supported chains: 1, 56, 97, 137, 204, 5611, 42161")) ∧
    (cfg.chainId ∈ ([1, 56, 137, 42161] : List Nat) →
      createVaultClient cfg =
        Except.error ("No contract addresses configured for chain ID: " ++
          toString cfg.chainId)) ∧
    (cfg.chainId ∈ ([97, 204, 5611] : List Nat) →
      ∃ client, createVaultClient cfg = Except.ok client) := by
  refine ⟨fun h => ?_, fun h => ?_, fun h => ?_⟩
  · simp only [List.mem_cons, List.not_mem_nil, or_false, not_or] at h
    obtain ⟨h1, h56, h97, h137, h204, h5611, h42161⟩ := h
    simp [createVaultClient, getChain, h1, h56, h97, h137, h204, h5611, h42161]
  · simp only [List.mem_cons, List.not_mem_nil, or_false] at h
    rcases h with h | h | h | h <;>
      simp [createVaultClient, getChain, getContractAddresses, h]
  · simp only [List.mem_cons, List.not_mem_nil, or_false] at h
    have key : ∀ (chain : ChainInfo) (contracts : ContractAddresses),
        getChain cfg.chainId = some chain →
        getContractAddresses cfg.chainId = some contracts →
        chain.defaultRpcUrl ≠ "" →
        ∃ client, createVaultClient cfg = Except.ok client := by
      intro chain contracts hg hc hne
      unfold createVaultClient
      rw [hg, hc]
      simp only
      have hrpc :
          (match cfg.rpcUrl with
            | some r => if r = "" then chain.defaultRpcUrl else r
            | none => chain.defaultRpcUrl) ≠ "" := by
        rcases cfg.rpcUrl with _ | r
        · exact hne
        · by_cases hre : r = ""
          · simp only [hre, if_pos]
            exact hne
          · simp only [hre, if_neg, reduceIte]
            exact hre
      rw [if_neg hrpc]
      rcases hpk : cfg.privateKey with _ | pk
      · simp only [hpk]
        rcases hwc : cfg.walletClient with _ | u <;> simp only [hwc] <;>
          exact ⟨_, rfl⟩
      · simp only [hpk]
        exact ⟨_, rfl⟩
    rcases h with h | h | h
    · exact key _ _ (by rw [h]; rfl) (by rw [h]; rfl) (by decide)
    · exact key _ _ (by rw [h]; rfl) (by rw [h]; rfl) (by decide)
    · exact key _ _ (by rw [h]; rfl) (by rw [h]; rfl) (by decide)

/-- Witness for C9 at chain IDs 2 (unconfigured), 56 (no contracts) and
97 (client returned). -/
theorem createVaultClient_chain_gating_witness :
    ((2 : Nat) ∉ ([1, 56, 97, 137, 204, 5611, 42161] : List Nat) ∧
      createVaultClient ⟨2, none, none, none, none⟩ =
        Except.error ("Unsupported chain ID: " ++ toString (2 : Nat) ++
          ". Supported chains: 1, 56, 97, 137, 204, 5611, 42161")) ∧
    ((56 : Nat) ∈ ([1, 56, 137, 42161] : List Nat) ∧
      createVaultClient ⟨56, none, none, none, none⟩ =
        Except.error ("No contract addresses configured for chain ID: " ++
          toString (56 : Nat))) ∧
    ((97 : Nat) ∈ ([97, 204, 5611] : List Nat) ∧
      ∃ client, createVaultClient ⟨97, none, none, none, none⟩ = Except.ok client) :=
  ⟨⟨by decide, (createVaultClient_chain_gating ⟨2, none, none, none, none⟩).1 (by decide)⟩,
   ⟨by decide, (createVaultClient_chain_gating ⟨56, none, none, none, none⟩).2.1 (by decide)⟩,
   ⟨by decide, (createVaultClient_chain_gating ⟨97, none, none, none, none⟩).2.2 (by decide)⟩⟩

/-- C3: a client created without a private key and without a wallet client
cannot write: every write-path operation of `VaultManager`
(`createVault`, `updateVault`, `uploadContent`, `unlockVault`) and of
`TimeManager` (`configureScheduledRelease`, `configureDeadmanSwitch`,
`configureHybridRelease`, `checkIn`, `triggerRelease`, `deactivate`) throws
before issuing any call, so no on-chain write is issued (the call trace
stays empty). -/
theorem readonly_client_write_guards
    (cfg : VaultClientConfig) (client : Client)
    (hpk : cfg.privateKey = none) (hwc : cfg.walletClient = none)
    (hok : createVaultClient cfg = Except.ok client)
    (w : World) (vaultId : String) (vconfig updates : PartialVaultConfig)
    (content : VaultManager.VaultContent)
    (hybrid : TimeManager.HybridTimeConfig) (now ut cp g : Int) :
    VaultManager.createVault w client vconfig now [] =
        (Except.error VaultManager.walletErr, []) ∧
      VaultManager.updateVault w client vaultId updates [] =
        (Except.error VaultManager.walletErr, []) ∧
      VaultManager.uploadContent w client vaultId content [] =
        (Except.error VaultManager.walletErr, []) ∧
      VaultManager.unlockVault w client vaultId [] =
        (Except.error VaultManager.walletErr, []) ∧
      TimeManager.configureScheduledRelease w client vaultId ut [] =
        (Except.error "Write operations require a wallet.", []) ∧
      TimeManager.configureDeadmanSwitch w client vaultId cp g [] =
        (Except.error "Write operations require a wallet.", []) ∧
      TimeManager.configureHybridRelease w client vaultId hybrid [] =
        (Except.error "Write operations require a wallet.", []) ∧
      TimeManager.checkIn w client vaultId [] =
        (Except.error "Write operations require a wallet.", []) ∧
      TimeManager.triggerRelease w client vaultId [] =
        (Except.error "Write operations require a wallet.", []) ∧
      TimeManager.deactivate w client vaultId [] =
        (Except.error "Write operations require a wallet.", []) := by
  have hcw : canWriteB client = false := by
    unfold createVaultClient at hok
    rcases hg : getChain cfg.chainId with _ | chain <;> rw [hg] at hok
    · exact absurd hok (by simp)
    rcases hc : getContractAddresses cfg.chainId with _ | contracts <;>
      rw [hc] at hok
    · exact absurd hok (by simp)
    simp only [hpk, hwc] at hok
    split at hok
    · exact absurd hok (by simp)
    · simp only [Except.ok.injEq] at hok
      subst hok
      rfl
  refine ⟨?_, ?_, ?_, ?_, ?_, ?_, ?_, ?_, ?_, ?_⟩ <;>
    simp [VaultManager.createVault, VaultManager.updateVault,
      VaultManager.uploadContent, VaultManager.unlockVault,
      TimeManager.configureScheduledRelease, TimeManager.configureDeadmanSwitch,
      TimeManager.configureHybridRelease, TimeManager.checkIn,
      TimeManager.triggerRelease, TimeManager.deactivate, hcw, M.throw]

/-- Witness for C3 at the concrete read-only chain-97 client. -/
theorem readonly_client_write_guards_witness :
    (⟨97, none, none, none, none⟩ : VaultClientConfig).privateKey = none ∧
      createVaultClient ⟨97, none, none, none, none⟩ = Except.ok exClientRO ∧
      VaultManager.createVault exWorld exClientRO {} 0 [] =
        (Except.error VaultManager.walletErr, []) ∧
      TimeManager.checkIn exWorld exClientRO exAddr [] =
        (Except.error "Write operations require a wallet.", []) :=
  have h := readonly_client_write_guards ⟨97, none, none, none, none⟩ exClientRO
    rfl rfl (by rfl) exWorld exAddr {} {} ⟨""⟩ {} 0 0 0 0
  ⟨rfl, by rfl, h.1, h.2.2.2.2.2.2.2.1⟩

/-- C2: unit conversions happen at the SDK boundary.  A millisecond
timestamp `t` given to `configureScheduledRelease` (or as the scheduled
time of a hybrid config) goes on-chain as `⌊t / 1000⌋` seconds; second
values read back come out of `getTimeConfig` and `getVault` multiplied by
1000 (`scheduledTime`/`unlockTime`, `lastCheckIn`) while
`deadmanDuration`/`checkInPeriod` is returned in seconds unconverted. -/
theorem unit_conversions_at_boundary
    (w : World) (c : Client) (addr vid : String) (t d n : Int)
    (vd : OnChainVault) (tc : TimeConfigTuple)
    (hcw : canWriteB c = true) (ha : isAddressString addr = true) :
    (TimeManager.configureScheduledRelease w c addr t []).2 =
        [Call.write (.configureTime addr RTC.SCHEDULED (Int.fdiv t 1000) 0)] ∧
      (TimeManager.configureHybridRelease w c addr ⟨some t, some d⟩ []).2 =
        [Call.write (.configureTime addr RTC.HYBRID (Int.fdiv t 1000) d)] ∧
      (w.vaultConfigs addr = Except.ok tc →
        (TimeManager.getTimeConfig w c addr []).1 =
          Except.ok
            ⟨TimeManager.mapReleaseType tc.releaseType, tc.scheduledTime * 1000,
              tc.deadmanDuration, tc.lastCheckIn * 1000, tc.isActive⟩) ∧
      (parseBigInt vid = Except.ok n → w.vaults n = Except.ok vd →
        vd.isActive = true → w.vaultConfigs vd.vaultAddress = Except.ok tc →
        tc.isActive = true →
        ∃ v, (VaultManager.getVault w c vid []).1 = Except.ok (some v) ∧
          v.unlockTime = some ((tc.scheduledTime * 1000 : Nat) : Int) ∧
          v.checkInPeriod = some ((tc.deadmanDuration : Nat) : Int) ∧
          v.lastCheckIn = some ((tc.lastCheckIn * 1000 : Nat) : Int)) := by
  refine ⟨?_, ?_, fun htc => ?_, fun hp hv hact htc htact => ?_⟩
  · simp [TimeManager.configureScheduledRelease, TimeManager.getVaultAddress,
      hcw, ha, M.bind_apply, M.pure_apply, World.writeContract, M.call]
  · have harg :
        ((if truthyNum (some t) then Int.fdiv t 1000 else 0) = Int.fdiv t 1000) ∧
          ((if truthyNum (some d) then d else 0) = d) := by
      constructor
      · by_cases ht : t = 0 <;> simp [truthyNum, ht]
      · by_cases hd : d = 0 <;> simp [truthyNum, hd]
    simp only [TimeManager.configureHybridRelease, TimeManager.getVaultAddress,
      hcw, ha, Bool.not_true, Bool.false_eq_true, if_false, if_true, reduceIte,
      M.bind_apply, M.pure_apply, World.writeContract, M.call]
    simp [harg.1, harg.2]
  · simp [TimeManager.getTimeConfig, TimeManager.getVaultAddress, ha, htc,
      M.bind_apply, M.pure_apply, World.readVaultConfigs, M.call]
  · refine
      ⟨{ id := vid, owner := vd.owner,
         releaseType := TimeManager.mapReleaseType tc.releaseType,
         unlockTime := some ((tc.scheduledTime * 1000 : Nat) : Int),
         checkInPeriod := some ((tc.deadmanDuration : Nat) : Int),
         lastCheckIn := some ((tc.lastCheckIn * 1000 : Nat) : Int),
         recipients := [], encrypted := true, crossChain := false,
         aiMonitored := false }, ?_, rfl, rfl, rfl⟩
    simp [VaultManager.getVault, M.tryCatch, M.liftExcept, M.bind_apply,
      M.pure_apply, World.readVaults, World.readVaultConfigs, M.call, hp, hv,
      hact, htc, htact]

/-- Witness for C2 at concrete values. -/
theorem unit_conversions_at_boundary_witness :
    canWriteB exClientRW = true ∧
      (TimeManager.configureScheduledRelease exWorld exClientRW exAddr
          1700000123456 []).2 =
        [Call.write
          (.configureTime exAddr RTC.SCHEDULED (Int.fdiv 1700000123456 1000) 0)] ∧
      (parseBigInt "0" = Except.ok 0 → exWorld.vaults 0 = Except.ok exVault →
        exVault.isActive = true →
        exWorld.vaultConfigs exVault.vaultAddress = Except.ok exTimeConfig →
        exTimeConfig.isActive = true →
        ∃ v, (VaultManager.getVault exWorld exClientRW "0" []).1 =
            Except.ok (some v) ∧
          v.unlockTime = some ((exTimeConfig.scheduledTime * 1000 : Nat) : Int) ∧
          v.checkInPeriod = some ((exTimeConfig.deadmanDuration : Nat) : Int) ∧
          v.lastCheckIn = some ((exTimeConfig.lastCheckIn * 1000 : Nat) : Int)) ∧
      parseBigInt "0" = Except.ok 0 :=
  have h := unit_conversions_at_boundary exWorld exClientRW exAddr "0"
    1700000123456 86401 0 exVault exTimeConfig rfl (by decide)
  ⟨rfl, h.1, h.2.2.2, by rfl⟩

/-- A computation wrapped in a catch-all handler that returns a pure value
never surfaces an error. -/
theorem tryCatch_pure_never_errors (x : M α) (a : α) (t : List Call) :
    ∃ r, (M.tryCatch x (fun _ => pure a) t).1 = Except.ok r := by
  unfold M.tryCatch
  rcases hx : x t with ⟨res, t'⟩
  cases res with
  | error e => exact ⟨a, by simp [hx, M.pure_apply]⟩
  | ok v => exact ⟨v, by simp [hx]⟩

/-- C6 counterexample: on a vault whose `vaultConfigs` read reverts,
`getVault` does not return null — the inner try/catch swallows that read
failure and a vault record with default time fields is returned, so
"if any underlying read fails … null is returned" fails for the
time-config read. -/
theorem getVault_counterexample_timeconfig_failure :
    exWorldTCFail.vaultConfigs exVault.vaultAddress = Except.error "revert" ∧
      parseBigInt "0" = Except.ok 0 ∧
      exWorldTCFail.vaults 0 = Except.ok exVault ∧
      (VaultManager.getVault exWorldTCFail exClientRW "0" []).1 =
        Except.ok (some
          { id := "0", owner := "0xowner", releaseType := .SCHEDULED,
            unlockTime := none, checkInPeriod := none, lastCheckIn := none,
            recipients := [], encrypted := true, crossChain := false,
            aiMonitored := false }) ∧
      (VaultManager.getVault exWorldTCFail exClientRW "0" []).1 ≠
        Except.ok none := by
  refine ⟨rfl, rfl, rfl, by rfl, ?_⟩
  rw [show (VaultManager.getVault exWorldTCFail exClientRW "0" []).1 =
    Except.ok (some
      { id := "0", owner := "0xowner", releaseType := .SCHEDULED,
        unlockTime := none, checkInPeriod := none, lastCheckIn := none,
        recipients := [], encrypted := true, crossChain := false,
        aiMonitored := false }) from rfl]
  simp

/-- C6 (amended): `getVault` never throws; a failing vault-tuple read (or
any error reaching the outer catch) yields null; an inactive vault yields
null; but a failing time-config read is swallowed by the inner catch and a
vault record with default time fields is still returned. -/
theorem getVault_never_throws
    (w : World) (c : Client) (vid : String) (t : List Call) :
    (∃ r, (VaultManager.getVault w c vid t).1 = Except.ok r) ∧
      (∀ n e, parseBigInt vid = Except.ok n → w.vaults n = Except.error e →
        (VaultManager.getVault w c vid t).1 = Except.ok none) ∧
      (∀ n vd, parseBigInt vid = Except.ok n → w.vaults n = Except.ok vd →
        vd.isActive = false →
        (VaultManager.getVault w c vid t).1 = Except.ok none) ∧
      (∀ n vd e, parseBigInt vid = Except.ok n → w.vaults n = Except.ok vd →
        vd.isActive = true →
        w.vaultConfigs vd.vaultAddress = Except.error e →
        (VaultManager.getVault w c vid t).1 =
          Except.ok (some
            { id := vid, owner := vd.owner, releaseType := .SCHEDULED,
              unlockTime := none, checkInPeriod := none, lastCheckIn := none,
              recipients := [], encrypted := true, crossChain := false,
              aiMonitored := false })) := by
  refine ⟨tryCatch_pure_never_errors _ none t, fun n e hp hv => ?_,
    fun n vd hp hv hact => ?_, fun n vd e hp hv hact htc => ?_⟩
  · simp [VaultManager.getVault, M.tryCatch, M.liftExcept, M.bind_apply,
      M.pure_apply, World.readVaults, M.call, hp, hv]
  · simp [VaultManager.getVault, M.tryCatch, M.liftExcept, M.bind_apply,
      M.pure_apply, World.readVaults, M.call, hp, hv, hact]
  · simp [VaultManager.getVault, M.tryCatch, M.liftExcept, M.bind_apply,
      M.pure_apply, World.readVaults, World.readVaultConfigs, M.call, hp, hv,
      hact, htc]

/-- Witness for C6 (amended) on the inactive-vault world. -/
theorem getVault_never_throws_witness :
    (∃ r, (VaultManager.getVault exWorldInactive exClientRW "0" []).1 =
        Except.ok r) ∧
      parseBigInt "0" = Except.ok 0 ∧
      exWorldInactive.vaults 0 = Except.ok exVaultInactive ∧
      exVaultInactive.isActive = false ∧
      (VaultManager.getVault exWorldInactive exClientRW "0" []).1 =
        Except.ok none :=
  have h := getVault_never_throws exWorldInactive exClientRW "0" []
  ⟨h.1, rfl, rfl, rfl, h.2.2.1 0 exVaultInactive rfl rfl rfl⟩

/-- C1: the unlock verdicts are the contract's, unchanged, with no local
evaluation of the unlock policy: `isUnlocked` returns exactly the first
component of the contract's `checkReleaseCondition`; `isDeadmanTriggered`
is the stated boolean combination of the `checkReleaseCondition` verdict
and the contract's `getTimeUntilDeadmanRelease` being zero; and
`getTimeUntilUnlock` returns the contract's `getTimeUntilScheduledRelease`
(SCHEDULED), `getTimeUntilDeadmanRelease` (DEADMAN), or their minimum
(HYBRID) — the stored config timestamps are never consulted locally. -/
theorem unlock_verdicts_from_contract
    (w : World) (c : Client) (vid addr : String) (n : Int)
    (vd : OnChainVault) (sr : Bool) (reason : String) (ts td : Nat)
    (tc : TimeConfigTuple)
    (ha : isAddressString addr = true)
    (hp : parseBigInt vid = Except.ok n) (hv : w.vaults n = Except.ok vd)
    (hcr : w.checkReleaseCondition vd.vaultAddress = Except.ok (sr, reason))
    (hcra : w.checkReleaseCondition addr = Except.ok (sr, reason))
    (hts : w.getTimeUntilScheduledRelease addr = Except.ok ts)
    (htd : w.getTimeUntilDeadmanRelease addr = Except.ok td)
    (htc : w.vaultConfigs addr = Except.ok tc) :
    (VaultManager.isUnlocked w c vid []).1 = Except.ok sr ∧
      (TimeManager.isDeadmanTriggered w c addr []).1 =
        Except.ok ((sr && TimeManager.reasonMentionsDeadman reason) ||
          decide (td = 0)) ∧
      (tc.releaseType = RTC.SCHEDULED →
        (TimeManager.getTimeUntilUnlock w c addr []).1 = Except.ok ts) ∧
      (tc.releaseType = RTC.DEADMAN →
        (TimeManager.getTimeUntilUnlock w c addr []).1 = Except.ok td) ∧
      (tc.releaseType = RTC.HYBRID →
        (TimeManager.getTimeUntilUnlock w c addr []).1 =
          Except.ok (min ts td)) := by
  refine ⟨?_, ?_, fun h1 => ?_, fun h2 => ?_, fun h3 => ?_⟩
  · simp [VaultManager.isUnlocked, M.liftExcept, M.bind_apply, M.pure_apply,
      World.readVaults, World.readCheckRelease, M.call, hp, hv, hcr]
  · cases sr <;>
      by_cases hm : TimeManager.reasonMentionsDeadman reason = true <;>
      simp [TimeManager.isDeadmanTriggered, TimeManager.getVaultAddress, ha,
        M.bind_apply, M.pure_apply, World.readCheckRelease,
        World.readTimeUntilDeadman, M.call, hcra, htd, hm]
  · simp [TimeManager.getTimeUntilUnlock, TimeManager.getVaultAddress, ha,
      M.bind_apply, M.pure_apply, World.readVaultConfigs,
      World.readTimeUntilScheduled, M.call, htc, hts, h1, RTC.SCHEDULED]
  · simp [TimeManager.getTimeUntilUnlock, TimeManager.getVaultAddress, ha,
      M.bind_apply, M.pure_apply, World.readVaultConfigs,
      World.readTimeUntilDeadman, M.call, htc, htd, h2, RTC.SCHEDULED,
      RTC.DEADMAN, RTC.HYBRID]
  · simp [TimeManager.getTimeUntilUnlock, TimeManager.getVaultAddress, ha,
      M.bind_apply, M.pure_apply, World.readVaultConfigs,
      World.readTimeUntilScheduled, World.readTimeUntilDeadman, M.call, htc,
      hts, htd, h3, RTC.SCHEDULED, RTC.HYBRID]

/-- Witness for C1 on the concrete world (hybrid vault, deadman elapsed). -/
theorem unlock_verdicts_from_contract_witness :
    parseBigInt "0" = Except.ok 0 ∧
      exTimeConfig.releaseType = RTC.HYBRID ∧
      (VaultManager.isUnlocked exWorld exClientRW "0" []).1 =
        Except.ok true ∧
      (TimeManager.isDeadmanTriggered exWorld exClientRW exAddr []).1 =
        Except.ok
          ((true && TimeManager.reasonMentionsDeadman "Deadman switch expired") ||
            decide ((0 : Nat) = 0)) ∧
      (TimeManager.getTimeUntilUnlock exWorld exClientRW exAddr []).1 =
        Except.ok (min 500 0) :=
  have h := unlock_verdicts_from_contract exWorld exClientRW "0" exAddr 0
    exVault true "Deadman switch expired" 500 0 exTimeConfig (by decide) rfl rfl
    rfl rfl rfl rfl rfl
  ⟨rfl, rfl, h.1, h.2.1, h.2.2.2.2 rfl⟩

/-- C4: the cross-chain client is a local in-memory stub.  `sendMessage`
issues no on-chain call (the trace passes through untouched); it errors
exactly when the source or destination chain is outside the supported
list; on success it returns the generated message ID, stores the message
under it (touching no other key), and `getMessageStatus` on that ID
reports sent/not-received/not-processed; on an ID absent from the map it
reports not-sent with error 'Message not found'. -/
theorem crosschain_inmemory_stub
    (st : CrossChain.PendingMap) (msg : CrossChain.CrossChainMessage)
    (now : Int) (rand : String) (trace : List Call) :
    (CrossChain.sendMessage st msg now rand trace).2 = trace ∧
      (CrossChain.isSupportedChain msg.sourceChain = true →
        CrossChain.isSupportedChain msg.destChain = true →
        ∃ st', (CrossChain.sendMessage st msg now rand trace).1 =
            Except.ok (CrossChain.mkMessageId msg now rand, st') ∧
          CrossChain.getMessageStatus st' (CrossChain.mkMessageId msg now rand) =
            { sent := true, received := false, processed := false,
              timestamp := some now, error := none } ∧
          ∀ id, id ≠ CrossChain.mkMessageId msg now rand → st' id = st id) ∧
      ((CrossChain.isSupportedChain msg.sourceChain = false ∨
          CrossChain.isSupportedChain msg.destChain = false) →
        ∃ e, (CrossChain.sendMessage st msg now rand trace).1 = Except.error e) ∧
      (∀ id, st id = none →
        CrossChain.getMessageStatus st id =
          { sent := false, received := false, processed := false,
            timestamp := none, error := some "Message not found" }) := by
  refine ⟨rfl, fun h1 h2 => ?_, fun h => ?_, fun id hid => ?_⟩
  · refine
      ⟨fun id =>
        if id = CrossChain.mkMessageId msg now rand then
          some (msg,
            { sent := true, received := false, processed := false,
              timestamp := some now, error := none })
        else st id, ?_, ?_, fun id hid => ?_⟩
    · simp [CrossChain.sendMessage, h1, h2]
    · simp [CrossChain.getMessageStatus]
    · simp [hid]
  · rcases h with h | h
    · exact ⟨"Source chain " ++ toString msg.sourceChain ++ " is not supported",
        by simp [CrossChain.sendMessage, h]⟩
    · cases h1 : CrossChain.isSupportedChain msg.sourceChain
      · exact ⟨"Source chain " ++ toString msg.sourceChain ++ " is not supported",
          by simp [CrossChain.sendMessage, h1]⟩
      · exact ⟨"Destination chain " ++ toString msg.destChain ++ " is not supported",
          by simp [CrossChain.sendMessage, h1, h]⟩
  · simp [CrossChain.getMessageStatus, hid]

/-- Witness for C4: a send between chains 97 and 204 on the empty map, and
a rejected send from unsupported chain 2. -/
theorem crosschain_inmemory_stub_witness :
    CrossChain.isSupportedChain 97 = true ∧
      CrossChain.isSupportedChain 2 = false ∧
      (∃ st', (CrossChain.sendMessage (fun _ => none) ⟨97, 204, "0", "sync"⟩
            5 "abc" []).1 =
          Except.ok (CrossChain.mkMessageId ⟨97, 204, "0", "sync"⟩ 5 "abc", st') ∧
        CrossChain.getMessageStatus st'
            (CrossChain.mkMessageId ⟨97, 204, "0", "sync"⟩ 5 "abc") =
          { sent := true, received := false, processed := false,
            timestamp := some 5, error := none } ∧
        ∀ id, id ≠ CrossChain.mkMessageId ⟨97, 204, "0", "sync"⟩ 5 "abc" →
          st' id = none) ∧
      (∃ e, (CrossChain.sendMessage (fun _ => none) ⟨2, 204, "0", "sync"⟩
          5 "abc" []).1 = Except.error e) ∧
      CrossChain.getMessageStatus (fun _ => none) "nope" =
        { sent := false, received := false, processed := false,
          timestamp := none, error := some "Message not found" } :=
  have h1 := crosschain_inmemory_stub (fun _ => none) ⟨97, 204, "0", "sync"⟩
    5 "abc" []
  have h2 := crosschain_inmemory_stub (fun _ => none) ⟨2, 204, "0", "sync"⟩
    5 "abc" []
  ⟨by decide, by decide, h1.2.1 (by decide) (by decide),
    h2.2.2.1 (Or.inl (by decide)), h1.2.2.2 "nope" rfl⟩

/-- C5 (code bug): `submitAttestation` does not return the identifier of the
attestation request created on-chain.  On a hub that assigns request ID 1
to the created request, a successful submission at `Date.now() =
1700000000000` returns 1700000000000 — the placeholder the source comments
admit — so polling `getAttestationStatus` with the returned value queries a
nonexistent request, while the actual request sits under ID 1. -/
theorem submitAttestation_returns_placeholder_not_request_id :
    Attestation.submitAttestation exHub exClientRW exHubAddr 1700000000000 =
        Except.ok 1700000000000 ∧
      exHub.assignedRequestId = 1 ∧
      (1700000000000 : Int) ≠ ((exHub.assignedRequestId : Nat) : Int) ∧
      Attestation.getAttestationStatus exHub exClientRW exHubAddr 1700000000000 =
        Except.error "request not found" ∧
      Attestation.getAttestationStatus exHub exClientRW exHubAddr 1 =
        Except.ok exAttRequest := by
  refine ⟨by rfl, rfl, by decide, by rfl, by rfl⟩

/-- Decoding the UTF-8 encoding of one scalar value, followed by any
suffix, recovers the scalar and continues with the suffix. -/
theorem utf8Decode_encodeChar (n : Nat) (h : n < 0x110000) (rest : List Nat) :
    Encoding.utf8Decode (Encoding.utf8EncodeChar n ++ rest) =
      (Encoding.utf8Decode rest).map (n :: ·) := by
  by_cases h80 : n < 0x80
  · have e1 : Encoding.utf8EncodeChar n = [n] := by
      simp [Encoding.utf8EncodeChar, h80]
    rw [e1, List.cons_append, List.nil_append, Encoding.utf8Decode.eq_def]
    simp [h80]
  by_cases h800 : n < 0x800
  · have e1 : Encoding.utf8EncodeChar n = [0xC0 + n / 64, 0x80 + n % 64] := by
      simp [Encoding.utf8EncodeChar, h80, h800]
    have c1 : ¬(0xC0 + n / 64 < 0x80) := by omega
    have c2 : 0xC0 + n / 64 < 0xE0 := by omega
    have c3 : 0xC2 ≤ 0xC0 + n / 64 := by omega
    have c4 : (0x80 + n % 64) / 64 = 2 := by omega
    have hv : n / 64 * 64 + n % 64 = n := by omega
    rw [e1]
    simp only [List.cons_append, List.nil_append]
    rw [Encoding.utf8Decode.eq_def]
    simp [c1, c2, c3, c4, hv]
  by_cases h10000 : n < 0x10000
  · have e1 : Encoding.utf8EncodeChar n =
        [0xE0 + n / 4096, 0x80 + n / 64 % 64, 0x80 + n % 64] := by
      simp [Encoding.utf8EncodeChar, h80, h800, h10000]
    have c1 : ¬(0xE0 + n / 4096 < 0x80) := by omega
    have c2 : ¬(0xE0 + n / 4096 < 0xE0) := by omega
    have c3 : 0xE0 + n / 4096 < 0xF0 := by omega
    have c4 : (0x80 + n / 64 % 64) / 64 = 2 := by omega
    have c5 : (0x80 + n % 64) / 64 = 2 := by omega
    have hv : n / 4096 * 4096 + n / 64 % 64 * 64 + n % 64 = n := by omega
    rw [e1]
    simp only [List.cons_append, List.nil_append]
    rw [Encoding.utf8Decode.eq_def]
    simp [c1, c2, c3, c4, c5, hv]
  · have e1 : Encoding.utf8EncodeChar n =
        [0xF0 + n / 262144, 0x80 + n / 4096 % 64, 0x80 + n / 64 % 64,
         0x80 + n % 64] := by
      simp [Encoding.utf8EncodeChar, h80, h800, h10000]
    have c1 : ¬(0xF0 + n / 262144 < 0x80) := by omega
    have c2 : ¬(0xF0 + n / 262144 < 0xE0) := by omega
    have c3 : ¬(0xF0 + n / 262144 < 0xF0) := by omega
    have c4 : 0xF0 + n / 262144 < 0xF8 := by omega
    have c5 : (0x80 + n / 4096 % 64) / 64 = 2 := by omega
    have c6 : (0x80 + n / 64 % 64) / 64 = 2 := by omega
    have c7 : (0x80 + n % 64) / 64 = 2 := by omega
    have hv : n / 262144 * 262144 + n / 4096 % 64 * 4096 +
        n / 64 % 64 * 64 + n % 64 = n := by omega
    rw [e1]
    simp only [List.cons_append, List.nil_append]
    rw [Encoding.utf8Decode.eq_def]
    simp [c1, c2, c3, c4, c5, c6, c7, hv]

/-- UTF-8 decode is a left inverse of UTF-8 encode on scalar sequences. -/
theorem utf8_roundtrip (s : List Nat) (h : ∀ c ∈ s, Encoding.ValidScalar c) :
    Encoding.utf8Decode (Encoding.utf8Encode s) = some s := by
  induction s with
  | nil => rfl
  | cons c t ih =>
    have hc : c < 0x110000 := by
      rcases h c (List.mem_cons_self _ _) with h1 | ⟨h1, h2⟩ <;> omega
    have ht := fun x hx => h x (List.mem_cons_of_mem _ hx)
    have e : Encoding.utf8Encode (c :: t) =
        Encoding.utf8EncodeChar c ++ Encoding.utf8Encode t := by
      simp [Encoding.utf8Encode]
    rw [e, utf8Decode_encodeChar c hc, ih ht]
    rfl

/-- Every byte produced by the UTF-8 encoder is below 256. -/
theorem utf8EncodeChar_bytes_lt (n : Nat) (h : n < 0x110000) :
    ∀ b ∈ Encoding.utf8EncodeChar n, b < 256 := by
  intro b hb
  unfold Encoding.utf8EncodeChar at hb
  split at hb
  · simp at hb
    omega
  · split at hb
    · simp at hb
      rcases hb with rfl | rfl <;> omega
    · split at hb
      · simp at hb
        rcases hb with rfl | rfl | rfl <;> omega
      · simp at hb
        rcases hb with rfl | rfl | rfl | rfl <;> omega

/-- Every byte of a UTF-8 encoded scalar sequence is below 256. -/
theorem utf8Encode_bytes_lt (s : List Nat) (h : ∀ c ∈ s, c < 0x110000) :
    ∀ b ∈ Encoding.utf8Encode s, b < 256 := by
  intro b hb
  simp only [Encoding.utf8Encode, List.mem_flatten, List.mem_map] at hb
  obtain ⟨l, ⟨c, hc, rfl⟩, hbl⟩ := hb
  exact utf8EncodeChar_bytes_lt c (h c hc) b hbl

/-- `toHexBytes` produces `0x` plus two characters per byte. -/
theorem toHexBytes_length (bytes : List Nat) :
    (Encoding.toHexBytes bytes).data.length = 2 + 2 * bytes.length := by
  have key : ∀ l : List Nat,
      ((l.map (fun b =>
        [Encoding.hexDigit (b / 16), Encoding.hexDigit (b % 16)])).flatten).length =
        2 * l.length := by
    intro l
    induction l with
    | nil => rfl
    | cons b t ih =>
      simp only [List.map_cons, List.flatten_cons, List.length_append,
        List.length_cons, List.length_nil, List.length_map, ih]
      omega
  simp only [Encoding.toHexBytes, List.length_cons, key]
  omega

/-- C10: `attestationTypeToBytes32` always hex-encodes exactly 32 bytes —
the UTF-8 bytes of the input truncated to the first 32, right-padded with
zero bytes — so it is total and its output is a hex string of constant
length 66 (`0x` + 64 digits) regardless of input length. -/
theorem attestationTypeToBytes32_fixed_width (s : List Nat)
    (h : ∀ c ∈ s, Encoding.ValidScalar c) :
    attestationTypeToBytes32 s =
        Encoding.toHexBytes ((Encoding.utf8Encode s).take 32 ++
          List.replicate (32 - ((Encoding.utf8Encode s).take 32).length) 0) ∧
      ((Encoding.utf8Encode s).take 32 ++
        List.replicate (32 - ((Encoding.utf8Encode s).take 32).length) 0).length
        = 32 ∧
      (∀ b ∈ (Encoding.utf8Encode s).take 32 ++
        List.replicate (32 - ((Encoding.utf8Encode s).take 32).length) 0,
        b < 256) ∧
      (attestationTypeToBytes32 s).data.length = 66 := by
  have hlt : ∀ c ∈ s, c < 0x110000 := by
    intro c hc
    rcases h c hc with h1 | ⟨h1, h2⟩ <;> omega
  have hlen : ((Encoding.utf8Encode s).take 32 ++
      List.replicate (32 - ((Encoding.utf8Encode s).take 32).length) 0).length
      = 32 := by
    simp only [List.length_append, List.length_take, List.length_replicate]
    omega
  refine ⟨rfl, hlen, fun b hb => ?_, ?_⟩
  · rcases List.mem_append.mp hb with hb | hb
    · exact utf8Encode_bytes_lt s hlt b (List.mem_of_mem_take hb)
    · have := List.eq_of_mem_replicate hb
      omega
  · show (Encoding.toHexBytes _).data.length = 66
    rw [toHexBytes_length, hlen]

/-- Witness for C10 on the type string "DEATH_VERIFICATION". -/
theorem attestationTypeToBytes32_fixed_width_witness :
    (∀ c ∈ exTypeStr, Encoding.ValidScalar c) ∧
      ((Encoding.utf8Encode exTypeStr).take 32 ++
        List.replicate (32 - ((Encoding.utf8Encode exTypeStr).take 32).length)
          0).length = 32 ∧
      (attestationTypeToBytes32 exTypeStr).data.length = 66 :=
  have h := attestationTypeToBytes32_fixed_width exTypeStr (by decide)
  ⟨by decide, h.2.1, h.2.2.2⟩

/-- Looking a base64 character back up yields its sextet. -/
theorem b64Index_b64Char (n : Nat) (h : n < 64) :
    Encoding.b64Index (Encoding.b64Char n) = some n :=
  have key : ∀ m : Fin 64,
      Encoding.b64Index (Encoding.b64Char m.val) = some m.val := by decide
  key ⟨n, h⟩

/-- No base64 alphabet character is the padding character. -/
theorem b64Char_ne_pad (n : Nat) (h : n < 64) : Encoding.b64Char n ≠ '=' :=
  have key : ∀ m : Fin 64, Encoding.b64Char m.val ≠ '=' := by decide
  key ⟨n, h⟩

/-- Base64 decode is a left inverse of base64 encode on byte lists
(length-bounded induction three bytes at a time). -/
theorem b64_roundtrip_aux (N : Nat) :
    ∀ l : List Nat, l.length ≤ N → (∀ x ∈ l, x < 256) →
      Encoding.b64Decode (Encoding.b64Encode l) = some l := by
  induction N with
  | zero =>
    intro l hl _
    rw [List.length_eq_zero.mp (Nat.le_zero.mp hl)]
    rfl
  | succ N ih =>
    intro l hl hb
    rcases l with _ | ⟨a, _ | ⟨b, _ | ⟨c, rest⟩⟩⟩
    · rfl
    · have ha : a < 256 := hb a (by simp)
      have h1 : a / 4 < 64 := by omega
      have h2 : a % 4 * 16 < 64 := by omega
      have hv : a / 4 * 4 + a % 4 = a := by omega
      simp [Encoding.b64Encode, Encoding.b64Decode,
        b64Index_b64Char _ h1, b64Index_b64Char _ h2, hv]
    · have ha : a < 256 := hb a (by simp)
      have hbb : b < 256 := hb b (by simp)
      have h1 : a / 4 < 64 := by omega
      have h2 : a % 4 * 16 + b / 16 < 64 := by omega
      have h3 : b % 16 * 4 < 64 := by omega
      have hv1 : a / 4 * 4 + (a % 4 * 16 + b / 16) / 16 = a := by omega
      have hv2 : (a % 4 * 16 + b / 16) % 16 * 16 + b % 16 = b := by omega
      simp [Encoding.b64Encode, Encoding.b64Decode, b64Char_ne_pad _ h3,
        b64Index_b64Char _ h1, b64Index_b64Char _ h2, b64Index_b64Char _ h3,
        hv1, hv2]
    · have ha : a < 256 := hb a (by simp)
      have hbb : b < 256 := hb b (by simp)
      have hc : c < 256 := hb c (by simp)
      have h1 : a / 4 < 64 := by omega
      have h2 : a % 4 * 16 + b / 16 < 64 := by omega
      have h3 : b % 16 * 4 + c / 64 < 64 := by omega
      have h4 : c % 64 < 64 := by omega
      have hv1 : a / 4 * 4 + (a % 4 * 16 + b / 16) / 16 = a := by omega
      have hv2 : (a % 4 * 16 + b / 16) % 16 * 16 + (b % 16 * 4 + c / 64) / 4
          = b := by omega
      have hv3 : (b % 16 * 4 + c / 64) % 4 * 64 + c % 64 = c := by omega
      have hrest : Encoding.b64Decode (Encoding.b64Encode rest) = some rest := by
        refine ih rest ?_ fun x hx => hb x (by simp [hx])
        simp only [List.length_cons] at hl
        omega
      simp [Encoding.b64Encode, Encoding.b64Decode, b64Char_ne_pad _ h3,
        b64Char_ne_pad _ h4, b64Index_b64Char _ h1, b64Index_b64Char _ h2,
        b64Index_b64Char _ h3, b64Index_b64Char _ h4, hrest, hv1, hv2, hv3]

/-- Base64 decode inverts base64 encode on byte lists. -/
theorem b64_roundtrip (l : List Nat) (hb : ∀ x ∈ l, x < 256) :
    Encoding.b64Decode (Encoding.b64Encode l) = some l :=
  b64_roundtrip_aux l.length l le_rfl hb

/-- C7: the symmetric-encryption wrappers round-trip.  For any AES-GCM
primitive satisfying the standard correctness property, `decryptData`
applied to the ciphertext and IV produced by `encryptData(s, k)` with the
same key returns `s`; and `importKey (exportKey k)` recovers a key with raw
material equal to `k`'s (base64 export/import is lossless on the 32-byte
raw key), under which encryption and decryption behave identically to `k`. -/
theorem encryption_wrappers_roundtrip
    (prim : Encryption.AesGcm) (key : Encryption.CryptoKey) (iv s : List Nat)
    (hprim : ∀ k i p, prim.dec k i (prim.enc k i p) = some p)
    (hs : ∀ c ∈ s, Encoding.ValidScalar c)
    (hkey : ∀ x ∈ key, x < 256) (_hklen : key.length = 32) :
    Encryption.decryptData prim (Encryption.encryptData prim s key iv).1 key iv
        = some s ∧
      (Encryption.encryptData prim s key iv).2 = iv ∧
      ∃ k', Encryption.importKey (Encryption.exportKey key) = some k' ∧
        (∀ iv' d, Encryption.encryptData prim d k' iv' =
          Encryption.encryptData prim d key iv') ∧
        (∀ iv' ct, Encryption.decryptData prim ct k' iv' =
          Encryption.decryptData prim ct key iv') := by
  refine ⟨?_, rfl, key, ?_, fun iv' d => rfl, fun iv' ct => rfl⟩
  · simp [Encryption.decryptData, Encryption.encryptData, hprim,
      utf8_roundtrip s hs]
  · exact b64_roundtrip key hkey

/-- Witness for C7 with the identity cipher, a concrete 32-byte key, a
12-byte IV and the message "hi". -/
theorem encryption_wrappers_roundtrip_witness :
    (∀ k i p, exPrim.dec k i (exPrim.enc k i p) = some p) ∧
      exKey.length = 32 ∧
      Encryption.decryptData exPrim
          (Encryption.encryptData exPrim exMsg exKey exIV).1 exKey exIV =
        some exMsg ∧
      ∃ k', Encryption.importKey (Encryption.exportKey exKey) = some k' ∧
        (∀ iv' d, Encryption.encryptData exPrim d k' iv' =
          Encryption.encryptData exPrim d exKey iv') ∧
        (∀ iv' ct, Encryption.decryptData exPrim ct k' iv' =
          Encryption.decryptData exPrim ct exKey iv') :=
  have h := encryption_wrappers_roundtrip exPrim exKey exIV exMsg
    (fun _ _ _ => rfl) (by decide) (by decide) (by decide)
  ⟨fun _ _ _ => rfl, by decide, h.1, h.2.2⟩

end Claims

end VaultSDK
